import Mathlib

/-!
Shallow embedding of the ReflectUs backend (src/main.py): an in-memory
two-party session coordinator.  The session mapping is modelled as a
function from identifiers to optional session records; each route becomes
a state-passing function.  The outbound OpenAI call is an external
collaborator, so the `ready` route is parameterised by an abstract
synthesis function and additionally returns a trace of effect events
(the one-minute pause and the synthesis call with its arguments).
Uncaught Python exceptions (KeyError / TypeError on a bad role key) are
modelled as a transport-level `exn` outcome, distinct from the structured
`notFound` JSON payload.
-/

namespace ReflectUs

/-- A participant slot: mirrors the dict
`{"name": ..., "answers": [...], "ready": ...}` built in
`create_session`.  Slot B starts with `name = None`, so the name is an
optional string. -/
structure Slot where
  name : Option String
  answers : List String
  ready : Bool
deriving DecidableEq

/-- A session record: mirrors `sessions[session_id]` with keys "A", "B",
"analysis", "language". -/
structure Session where
  A : Slot
  B : Slot
  analysis : Option String
  language : String
deriving DecidableEq

/-- The global `sessions` dict, as a map from identifier to record. -/
abbrev Sessions := String → Option Session

/-- Python dict assignment `sessions[id] = s`. -/
def upd (m : Sessions) (id : String) (s : Session) : Sessions :=
  fun k => if k = id then some s else m k

/-- Outcome of a route: a normal JSON payload, the structured
`{"error": "Session not found"}` payload (still HTTP 200), or an
uncaught Python exception surfacing as a transport-level failure. -/
inductive Resp (α : Type) where
  | ok : α → Resp α
  | notFound : Resp α
  | exn : Resp α
deriving DecidableEq

/-- Observable effects of the `ready` route: the fixed `time.sleep(60)`
pause and the synchronous `generate_reflection` call with its exact
arguments. -/
inductive Event where
  | sleep : Nat → Event
  | synthCall : List String → List String → Option String → Option String → String → Event
deriving DecidableEq

/-- Type of the abstract synthesis collaborator
`generate_reflection(answers_a, answers_b, name_a, name_b, language)`. -/
abbrev SynthFn := List String → List String → Option String → Option String → String → String

/-- `data.language or "en"`: Python `or` falls back to "en" when the field
is `None` (or absent, since the pydantic default "en" is truthy) and also
when it is the falsy empty string. -/
def langOrDefault (l : Option String) : String :=
  match l with
  | none => "en"
  | some s => if s = "" then "en" else s

/-- The fresh record stored by `create_session`. -/
def initSession (creator_name : String) (language : Option String) : Session :=
  { A := { name := some creator_name, answers := [], ready := false }
    B := { name := none, answers := [], ready := false }
    analysis := none
    language := langOrDefault language }

/-- `POST /create_session`.  The random draw `str(uuid.uuid4())[:6]` is
externalised as the argument `gen`; the route stores the fresh record at
that key and returns it.  The `gender` field is ignored by the code. -/
def create_session (m : Sessions) (gen creator_name : String)
    (language : Option String) : String × Sessions :=
  (gen, upd m gen (initSession creator_name language))

/-- `POST /join_session`: on an unknown id returns the error payload,
otherwise overwrites the name of slot B and answers `{"role": "B"}`. -/
def join_session (m : Sessions) (id name : String) : Resp String × Sessions :=
  match m id with
  | none => (Resp.notFound, m)
  | some s => (Resp.ok "B", upd m id { s with B := { s.B with name := some name } })

/-- `sessions[id][role]` read as a participant slot: defined only for the
keys "A" and "B".  Any other role string hits either a missing key
(KeyError) or a value that is not a slot dict ("analysis", "language"),
so the lookup yields no slot. -/
def roleGet (s : Session) (role : String) : Option Slot :=
  if role = "A" then some s.A else if role = "B" then some s.B else none

/-- Write back a participant slot at the role key (meaningful only for
"A" and "B"; other strings leave the record unchanged, matching the fact
that the Python code raises before any mutation happens for them). -/
def roleSet (s : Session) (role : String) (slot : Slot) : Session :=
  if role = "A" then { s with A := slot }
  else if role = "B" then { s with B := slot }
  else s

/-- `POST /save_answer`: unknown id gives the error payload; a bad role
raises (transport failure, no mutation); otherwise the answer text is
appended to the answer list of the role. -/
def save_answer (m : Sessions) (id role answer : String) :
    Resp Unit × Sessions :=
  match m id with
  | none => (Resp.notFound, m)
  | some s =>
    match roleGet s role with
    | none => (Resp.exn, m)
    | some slot =>
      (Resp.ok (), upd m id (roleSet s role { slot with answers := slot.answers ++ [answer] }))

/-- `POST /ready`: unknown id gives the error payload; a bad role raises
before any mutation; otherwise the flag of the role is set to `True` and, when
both flags are now true and the analysis is still absent, the route sleeps
60 seconds, calls the synthesis collaborator with both answer lists, both
names and the language tag, and stores the result as the analysis. -/
def ready (synth : SynthFn) (m : Sessions) (id role : String) :
    Resp Unit × Sessions × List Event :=
  match m id with
  | none => (Resp.notFound, m, [])
  | some s =>
    match roleGet s role with
    | none => (Resp.exn, m, [])
    | some slot =>
      let s1 := roleSet s role { slot with ready := true }
      if s1.A.ready = true ∧ s1.B.ready = true ∧ s1.analysis = none then
        let result := synth s1.A.answers s1.B.answers s1.A.name s1.B.name s1.language
        (Resp.ok (),
         upd m id { s1 with analysis := some result },
         [Event.sleep 60,
          Event.synthCall s1.A.answers s1.B.answers s1.A.name s1.B.name s1.language])
      else
        (Resp.ok (), upd m id s1, [])

/-- Payload of `GET /check_ready/{session_id}`. -/
structure ReadyStatus where
  A_ready : Bool
  B_ready : Bool
  both_ready : Bool
deriving DecidableEq

/-- `GET /check_ready/{session_id}`: a pure read of both flags and their
conjunction. -/
def check_ready (m : Sessions) (id : String) : Resp ReadyStatus :=
  match m id with
  | none => Resp.notFound
  | some s => Resp.ok ⟨s.A.ready, s.B.ready, s.A.ready && s.B.ready⟩

/-- `GET /get_results`: a pure read of the analysis field. -/
def get_results (m : Sessions) (id : String) : Resp (Option String) :=
  match m id with
  | none => Resp.notFound
  | some s => Resp.ok s.analysis

/-- The `language_map` literal inside `generate_reflection`. -/
def language_map : List (String × String) :=
  [("en", "English"), ("sl", "Slovenian"), ("hr", "Croatian"),
   ("sr", "Serbian"), ("de", "German"), ("fr", "French"),
   ("es", "Spanish"), ("it", "Italian"), ("pt", "Portuguese")]

/-- `language_map.get(language, "English")`. -/
def language_name (language : String) : String :=
  (language_map.lookup language).getD "English"

/-- The `language_instruction` f-string passed to the collaborator as the
first system message. -/
def language_instruction (language : String) : String :=
  "The following reflection must be written entirely in " ++
    language_name language ++ ". Do not use any other language."

/-- A whole run of consecutive `save_answer` calls for one session and
role, threading the state. -/
def save_all (m : Sessions) (id role : String) (answers : List String) : Sessions :=
  answers.foldl (fun acc a => (save_answer acc id role a).2) m

/-! ### Basic lemmas about the map and the role accessors -/

theorem upd_self (m : Sessions) (id : String) (s : Session) :
    upd m id s id = some s := by
  simp [upd]

theorem upd_ne (m : Sessions) (id k : String) (s : Session) (h : k ≠ id) :
    upd m id s k = m k := by
  simp [upd, h]

theorem upd_upd (m : Sessions) (id : String) (s t : Session) :
    upd (upd m id s) id t = upd m id t := by
  funext k
  by_cases h : k = id <;> simp [upd, h]

theorem roleSet_analysis (s : Session) (role : String) (slot : Slot) :
    (roleSet s role slot).analysis = s.analysis := by
  unfold roleSet
  split
  · rfl
  · split <;> rfl

theorem roleSet_language (s : Session) (role : String) (slot : Slot) :
    (roleSet s role slot).language = s.language := by
  unfold roleSet
  split
  · rfl
  · split <;> rfl

theorem roleGet_cases (s : Session) (r : String) (slot : Slot)
    (h : roleGet s r = some slot) :
    (r = "A" ∧ slot = s.A) ∨ (r = "B" ∧ slot = s.B) := by
  unfold roleGet at h
  by_cases hA : r = "A"
  · simp [hA] at h
    exact Or.inl ⟨hA, h.symm⟩
  · by_cases hB : r = "B"
    · simp [hA, hB] at h
      exact Or.inr ⟨hB, h.symm⟩
    · simp [hA, hB] at h

theorem save_all_nil (m : Sessions) (id role : String) :
    save_all m id role [] = m := rfl

theorem save_all_cons (m : Sessions) (id role a : String) (rest : List String) :
    save_all m id role (a :: rest) = save_all (save_answer m id role a).2 id role rest := rfl

theorem save_all_A (id : String) (answers : List String) :
    ∀ (m : Sessions) (s : Session), m id = some s →
    (∀ k, k ≠ id → save_all m id "A" answers k = m k) ∧
    save_all m id "A" answers id =
      some { s with A := { s.A with answers := s.A.answers ++ answers } } := by
  induction answers with
  | nil =>
    intro m s hid
    refine ⟨fun k _ => rfl, ?_⟩
    rw [save_all_nil, List.append_nil]
    exact hid
  | cons a rest ih =>
    intro m s hid
    have hstep : (save_answer m id "A" a).2 =
        upd m id { s with A := { s.A with answers := s.A.answers ++ [a] } } := by
      simp [save_answer, hid, roleGet, roleSet]
    have hid1 : (save_answer m id "A" a).2 id =
        some { s with A := { s.A with answers := s.A.answers ++ [a] } } := by
      rw [hstep]; exact upd_self _ _ _
    obtain ⟨h1, h2⟩ := ih _ _ hid1
    constructor
    · intro k hk
      rw [save_all_cons, h1 k hk, hstep]
      exact upd_ne _ _ _ _ hk
    · rw [save_all_cons, h2]
      simp [List.append_assoc]

theorem save_all_B (id : String) (answers : List String) :
    ∀ (m : Sessions) (s : Session), m id = some s →
    (∀ k, k ≠ id → save_all m id "B" answers k = m k) ∧
    save_all m id "B" answers id =
      some { s with B := { s.B with answers := s.B.answers ++ answers } } := by
  induction answers with
  | nil =>
    intro m s hid
    refine ⟨fun k _ => rfl, ?_⟩
    rw [save_all_nil, List.append_nil]
    exact hid
  | cons a rest ih =>
    intro m s hid
    have hstep : (save_answer m id "B" a).2 =
        upd m id { s with B := { s.B with answers := s.B.answers ++ [a] } } := by
      simp [save_answer, hid, roleGet, roleSet]
    have hid1 : (save_answer m id "B" a).2 id =
        some { s with B := { s.B with answers := s.B.answers ++ [a] } } := by
      rw [hstep]; exact upd_self _ _ _
    obtain ⟨h1, h2⟩ := ih _ _ hid1
    constructor
    · intro k hk
      rw [save_all_cons, h1 k hk, hstep]
      exact upd_ne _ _ _ _ hk
    · rw [save_all_cons, h2]
      simp [List.append_assoc]

theorem roleSet_ready_fields (s : Session) (r : String) (slot : Slot)
    (hg : roleGet s r = some slot) :
    (roleSet s r { slot with ready := true }).A.answers = s.A.answers ∧
    (roleSet s r { slot with ready := true }).B.answers = s.B.answers ∧
    (roleSet s r { slot with ready := true }).A.name = s.A.name ∧
    (roleSet s r { slot with ready := true }).B.name = s.B.name ∧
    (roleSet s r { slot with ready := true }).language = s.language ∧
    (roleSet s r { slot with ready := true }).analysis = s.analysis := by
  rcases roleGet_cases s r slot hg with ⟨hr, hs⟩ | ⟨hr, hs⟩ <;> subst hr <;> subst hs <;>
    simp [roleSet]

/-- The record stored when the readiness check fires: the session with the
synthesis result written into the analysis field. -/
def triggered (synth : SynthFn) (s1 : Session) : Session :=
  let result := synth s1.A.answers s1.B.answers s1.A.name s1.B.name s1.language
  { s1 with analysis := some result }

theorem join_session_state (m : Sessions) (id nm : String) :
    (join_session m id nm).2 = m ∨
    ∃ s, m id = some s ∧
      (join_session m id nm).2 = upd m id { s with B := { s.B with name := some nm } } := by
  cases hm : m id with
  | none => exact Or.inl (by simp [join_session, hm])
  | some s => exact Or.inr ⟨s, rfl, by simp [join_session, hm]⟩

theorem save_answer_state (m : Sessions) (id r a : String) :
    (save_answer m id r a).2 = m ∨
    ∃ s slot, m id = some s ∧ roleGet s r = some slot ∧
      (save_answer m id r a).2 =
        upd m id (roleSet s r { slot with answers := slot.answers ++ [a] }) := by
  cases hm : m id with
  | none => exact Or.inl (by simp [save_answer, hm])
  | some s =>
    cases hg : roleGet s r with
    | none => exact Or.inl (by simp [save_answer, hm, hg])
    | some slot => exact Or.inr ⟨s, slot, rfl, hg, by simp [save_answer, hm, hg]⟩

theorem ready_state (synth : SynthFn) (m : Sessions) (id r : String) :
    (ready synth m id r).2.1 = m ∨
    ∃ s slot, m id = some s ∧ roleGet s r = some slot ∧
      ((ready synth m id r).2.1 = upd m id (roleSet s r { slot with ready := true }) ∨
       (ready synth m id r).2.1 =
         upd m id (triggered synth (roleSet s r { slot with ready := true }))) := by
  cases hm : m id with
  | none => exact Or.inl (by simp [ready, hm])
  | some s =>
    cases hg : roleGet s r with
    | none => exact Or.inl (by simp [ready, hm, hg])
    | some slot =>
      refine Or.inr ⟨s, slot, rfl, hg, ?_⟩
      by_cases hc : (roleSet s r { slot with ready := true }).A.ready = true ∧
          (roleSet s r { slot with ready := true }).B.ready = true ∧
          (roleSet s r { slot with ready := true }).analysis = none
      · exact Or.inr (by simp [ready, triggered, hm, hg, hc])
      · exact Or.inl (by simp [ready, hm, hg, hc])

theorem roleGet_roleSet_self (s : Session) (role : String) (slot x : Slot)
    (hg : roleGet s role = some slot) :
    roleGet (roleSet s role x) role = some x := by
  rcases roleGet_cases s role slot hg with ⟨hr, -⟩ | ⟨hr, -⟩ <;> subst hr <;>
    simp [roleGet, roleSet]

theorem roleSet_self (s : Session) (role : String) (x : Slot)
    (h : roleGet s role = some x) :
    roleSet s role x = s := by
  rcases roleGet_cases s role x h with ⟨hr, hx⟩ | ⟨hr, hx⟩ <;> subst hr <;> subst hx <;>
    simp [roleSet]

theorem roleGet_triggered (synth : SynthFn) (x : Session) (role : String) :
    roleGet (triggered synth x) role = roleGet x role := by
  by_cases hA : role = "A" <;> by_cases hB : role = "B" <;>
    simp [roleGet, triggered, hA, hB]

theorem ready_trigger (synth : SynthFn) (m : Sessions) (id role : String)
    (s : Session) (slot : Slot) (hid : m id = some s) (hget : roleGet s role = some slot)
    (hA : (roleSet s role { slot with ready := true }).A.ready = true)
    (hB : (roleSet s role { slot with ready := true }).B.ready = true)
    (han : s.analysis = none) :
    ready synth m id role =
      (Resp.ok (), upd m id (triggered synth (roleSet s role { slot with ready := true })),
       [Event.sleep 60,
        Event.synthCall (roleSet s role { slot with ready := true }).A.answers
          (roleSet s role { slot with ready := true }).B.answers
          (roleSet s role { slot with ready := true }).A.name
          (roleSet s role { slot with ready := true }).B.name
          (roleSet s role { slot with ready := true }).language]) := by
  have han2 : (roleSet s role { slot with ready := true }).analysis = none := by
    rw [roleSet_analysis]; exact han
  simp [ready, hid, hget, hA, hB, han2, triggered]

theorem ready_no_trigger (synth : SynthFn) (m : Sessions) (id role : String)
    (s : Session) (slot : Slot) (hid : m id = some s) (hget : roleGet s role = some slot)
    (hcond : ¬((roleSet s role { slot with ready := true }).A.ready = true ∧
               (roleSet s role { slot with ready := true }).B.ready = true ∧
               s.analysis = none)) :
    ready synth m id role =
      (Resp.ok (), upd m id (roleSet s role { slot with ready := true }), []) := by
  have han2 : (roleSet s role { slot with ready := true }).analysis = s.analysis :=
    roleSet_analysis _ _ _
  simp [ready, hid, hget, han2, hcond]

/-! ### Sample states used by the witnesses -/

/-- A freshly created session (creator Alex, language en). -/
def sampleFresh : Session := initSession "Alex" (some "en")

/-- A session where both parties are ready and the analysis is stored. -/
def sampleDone : Session :=
  { A := { name := some "Alex", answers := ["a1", "a2"], ready := true }
    B := { name := some "Sam", answers := ["b1"], ready := true }
    analysis := some "the reflection"
    language := "en" }

/-- A session where B is ready, A is not, and no analysis exists yet. -/
def samplePending : Session :=
  { A := { name := some "Alex", answers := ["a1", "a2"], ready := false }
    B := { name := some "Sam", answers := ["b1"], ready := true }
    analysis := none
    language := "en" }

/-- A map holding only the fresh sample session. -/
def mFresh : Sessions := fun k => if k = "ab12cd" then some sampleFresh else none

/-- A map holding only the completed sample session. -/
def mDone : Sessions := fun k => if k = "ab12cd" then some sampleDone else none

/-- A map holding only the pending sample session. -/
def mPending : Sessions := fun k => if k = "ab12cd" then some samplePending else none

/-! ### Claim theorems -/

/-- C5: on a session identifier absent from the mapping, each of
join_session, save_answer, ready, check_ready and get_results returns the
structured NotFound error payload (not a raised exception) and leaves the
whole session mapping unchanged (the two pure reads return only the
payload and cannot mutate by construction). -/
theorem unknown_session_not_found (synth : SynthFn) (m : Sessions)
    (id name role answer : String) (h : m id = none) :
    join_session m id name = (Resp.notFound, m) ∧
    save_answer m id role answer = (Resp.notFound, m) ∧
    ready synth m id role = (Resp.notFound, m, []) ∧
    check_ready m id = Resp.notFound ∧
    get_results m id = Resp.notFound := by
  refine ⟨?_, ?_, ?_, ?_, ?_⟩ <;>
    simp [join_session, save_answer, ready, check_ready, get_results, h]

theorem unknown_session_not_found_witness :
    join_session (fun _ => none) "zzzzzz" "Sam" = (Resp.notFound, fun _ => none) ∧
    save_answer (fun _ => none) "zzzzzz" "A" "hi" = (Resp.notFound, fun _ => none) ∧
    ready (fun _ _ _ _ _ => "t") (fun _ => none) "zzzzzz" "A"
      = (Resp.notFound, fun _ => none, []) ∧
    check_ready (fun _ => none) "zzzzzz" = Resp.notFound ∧
    get_results (fun _ => none) "zzzzzz" = Resp.notFound :=
  unknown_session_not_found (fun _ _ _ _ _ => "t") (fun _ => none) "zzzzzz" "Sam" "A" "hi" rfl

/-- C6: on an existing session, get_results returns exactly the stored
analysis field: null while synthesis has not happened, and the stored text
(unchanged, on every query, since the route is a pure read) once it is
present. -/
theorem get_results_reads_analysis (m : Sessions) (id : String) (s : Session)
    (h : m id = some s) :
    get_results m id = Resp.ok s.analysis ∧
    (s.analysis = none → get_results m id = Resp.ok none) ∧
    (∀ t, s.analysis = some t → get_results m id = Resp.ok (some t)) := by
  refine ⟨?_, fun ha => ?_, fun t ht => ?_⟩ <;> simp [get_results, h, *]

theorem get_results_reads_analysis_witness :
    get_results mPending "ab12cd" = Resp.ok none ∧
    get_results mDone "ab12cd" = Resp.ok (some "the reflection") :=
  ⟨(get_results_reads_analysis mPending "ab12cd" samplePending (by decide)).2.1 (by decide),
   (get_results_reads_analysis mDone "ab12cd" sampleDone (by decide)).2.2
     "the reflection" (by decide)⟩

/-- C8: the language name interpolated into the language-enforcement
instruction is taken from the fixed lookup table, and falls back to
English for every code outside the table. -/
theorem language_fallback (lang : String) :
    (language_map.lookup lang = none → language_name lang = "English") ∧
    (∀ nm, language_map.lookup lang = some nm → language_name lang = nm) ∧
    language_instruction lang =
      "The following reflection must be written entirely in " ++
        language_name lang ++ ". Do not use any other language." := by
  refine ⟨fun h => ?_, fun nm h => ?_, rfl⟩ <;> simp [language_name, h]

theorem language_fallback_witness :
    language_name "xx" = "English" ∧ language_name "sl" = "Slovenian" :=
  ⟨(language_fallback "xx").1 (by decide),
   (language_fallback "sl").2.1 "Slovenian" (by decide)⟩

/-- C10: on an existing session, a role string other than "A" or "B" makes
save_answer and ready surface an exception (no success payload) with the
session mapping untouched: the slot lookup yields no participant slot, so
nothing is appended and no flag is created or set. -/
theorem invalid_role_errors (synth : SynthFn) (m : Sessions)
    (id role answer : String) (s : Session) (hid : m id = some s)
    (hA : role ≠ "A") (hB : role ≠ "B") :
    save_answer m id role answer = (Resp.exn, m) ∧
    ready synth m id role = (Resp.exn, m, []) ∧
    roleGet s role = none := by
  have hget : roleGet s role = none := by simp [roleGet, hA, hB]
  refine ⟨?_, ?_, hget⟩ <;> simp [save_answer, ready, hid, hget]

theorem invalid_role_errors_witness :
    save_answer mFresh "ab12cd" "analysis" "hi" = (Resp.exn, mFresh) ∧
    ready (fun _ _ _ _ _ => "t") mFresh "ab12cd" "analysis" = (Resp.exn, mFresh, []) ∧
    roleGet sampleFresh "analysis" = none :=
  invalid_role_errors (fun _ _ _ _ _ => "t") mFresh "ab12cd" "analysis" "hi"
    sampleFresh (by decide) (by decide) (by decide)

/-- C3: ready is idempotent per role: on an existing session and a role in
{A,B}, a second ready call for the same role leaves the session mapping
exactly as after the first call, emits no effect at all (in particular no
second pause and no second synthesis call), still answers the ok payload,
and the readiness flag of the role is true after the first call (hence after
the second as well, the states being equal). -/
theorem ready_idempotent (synth : SynthFn) (m : Sessions) (id role : String)
    (s : Session) (hid : m id = some s) (hrole : role = "A" ∨ role = "B") :
    (ready synth (ready synth m id role).2.1 id role).2.1 = (ready synth m id role).2.1 ∧
    (ready synth (ready synth m id role).2.1 id role).2.2 = ([] : List Event) ∧
    (ready synth (ready synth m id role).2.1 id role).1 = Resp.ok () ∧
    ∃ s1, (ready synth m id role).2.1 id = some s1 ∧
      (roleGet s1 role).map Slot.ready = some true := by
  obtain ⟨slot, hget⟩ : ∃ slot, roleGet s role = some slot := by
    rcases hrole with rfl | rfl
    · exact ⟨s.A, by simp [roleGet]⟩
    · exact ⟨s.B, by simp [roleGet]⟩
  have hget1 : roleGet (roleSet s role { slot with ready := true }) role =
      some { slot with ready := true } := roleGet_roleSet_self s role slot _ hget
  have hcollapse : ({ { slot with ready := true } with ready := true } : Slot) =
      { slot with ready := true } := rfl
  by_cases hc : (roleSet s role { slot with ready := true }).A.ready = true ∧
      (roleSet s role { slot with ready := true }).B.ready = true ∧
      s.analysis = none
  · -- the first call performs the synthesis
    have e1 := ready_trigger synth m id role s slot hid hget hc.1 hc.2.1 hc.2.2
    have hid2 : (ready synth m id role).2.1 id =
        some (triggered synth (roleSet s role { slot with ready := true })) := by
      rw [e1]; exact upd_self _ _ _
    have hget2 : roleGet (triggered synth (roleSet s role { slot with ready := true }))
        role = some { slot with ready := true } := by
      rw [roleGet_triggered]; exact hget1
    have han2 : (triggered synth (roleSet s role { slot with ready := true })).analysis
        ≠ none := by simp [triggered]
    have hcond2 : ¬((roleSet (triggered synth (roleSet s role { slot with ready := true }))
          role { { slot with ready := true } with ready := true }).A.ready = true ∧
        (roleSet (triggered synth (roleSet s role { slot with ready := true }))
          role { { slot with ready := true } with ready := true }).B.ready = true ∧
        (triggered synth (roleSet s role { slot with ready := true })).analysis = none) :=
      fun h => han2 h.2.2
    have e2 := ready_no_trigger synth (ready synth m id role).2.1 id role
      (triggered synth (roleSet s role { slot with ready := true }))
      { slot with ready := true } hid2 hget2 hcond2
    have hss : roleSet (triggered synth (roleSet s role { slot with ready := true }))
        role { { slot with ready := true } with ready := true } =
        triggered synth (roleSet s role { slot with ready := true }) := by
      rw [hcollapse]; exact roleSet_self _ _ _ hget2
    refine ⟨?_, by rw [e2], by rw [e2], triggered synth (roleSet s role
      { slot with ready := true }), hid2, ?_⟩
    · rw [e2, hss, e1]
      exact upd_upd _ _ _ _
    · rw [hget2]; rfl
  · -- the first call only records the flag
    have e1 := ready_no_trigger synth m id role s slot hid hget hc
    have hid1 : (ready synth m id role).2.1 id =
        some (roleSet s role { slot with ready := true }) := by
      rw [e1]; exact upd_self _ _ _
    have hss : roleSet (roleSet s role { slot with ready := true }) role
        { { slot with ready := true } with ready := true } =
        roleSet s role { slot with ready := true } := by
      rw [hcollapse]; exact roleSet_self _ _ _ hget1
    have hcond2 : ¬((roleSet (roleSet s role { slot with ready := true }) role
          { { slot with ready := true } with ready := true }).A.ready = true ∧
        (roleSet (roleSet s role { slot with ready := true }) role
          { { slot with ready := true } with ready := true }).B.ready = true ∧
        (roleSet s role { slot with ready := true }).analysis = none) := by
      rw [hss, roleSet_analysis]
      exact hc
    have e2 := ready_no_trigger synth (ready synth m id role).2.1 id role
      (roleSet s role { slot with ready := true })
      { slot with ready := true } hid1 hget1 hcond2
    refine ⟨?_, by rw [e2], by rw [e2],
      roleSet s role { slot with ready := true }, hid1, ?_⟩
    · rw [e2, hss, e1]
      exact upd_upd _ _ _ _
    · rw [hget1]; rfl

theorem ready_idempotent_witness :
    (ready (fun _ _ _ _ _ => "out")
        (ready (fun _ _ _ _ _ => "out") mFresh "ab12cd" "A").2.1 "ab12cd" "A").2.1 =
      (ready (fun _ _ _ _ _ => "out") mFresh "ab12cd" "A").2.1 ∧
    (ready (fun _ _ _ _ _ => "out")
        (ready (fun _ _ _ _ _ => "out") mFresh "ab12cd" "A").2.1 "ab12cd" "A").2.2 =
      ([] : List Event) ∧
    (ready (fun _ _ _ _ _ => "out")
        (ready (fun _ _ _ _ _ => "out") mFresh "ab12cd" "A").2.1 "ab12cd" "A").1 =
      Resp.ok () ∧
    ∃ s1, (ready (fun _ _ _ _ _ => "out") mFresh "ab12cd" "A").2.1 "ab12cd" = some s1 ∧
      (roleGet s1 "A").map Slot.ready = some true :=
  ready_idempotent (fun _ _ _ _ _ => "out") mFresh "ab12cd" "A" sampleFresh
    (by decide) (Or.inl rfl)

/-- C2: when a ready call triggers (after recording the flag of the caller both
flags are true and the analysis is still absent), the effect trace is
exactly the fixed 60-second pause followed by one synchronous synthesis
call whose arguments are the accumulated answer lists of roles A and B,
the two display names and the language tag of the session, and the returned
text is stored as the analysis of the session. -/
theorem ready_triggers_synthesis (synth : SynthFn) (m : Sessions) (id role : String)
    (s : Session) (slot : Slot) (hid : m id = some s) (hget : roleGet s role = some slot)
    (hA : (roleSet s role { slot with ready := true }).A.ready = true)
    (hB : (roleSet s role { slot with ready := true }).B.ready = true)
    (han : s.analysis = none) :
    (ready synth m id role).2.2 =
      [Event.sleep 60,
       Event.synthCall s.A.answers s.B.answers s.A.name s.B.name s.language] ∧
    (ready synth m id role).1 = Resp.ok () ∧
    ∃ s2, (ready synth m id role).2.1 id = some s2 ∧
      s2.analysis = some (synth s.A.answers s.B.answers s.A.name s.B.name s.language) ∧
      s2.A.answers = s.A.answers ∧ s2.B.answers = s.B.answers ∧
      s2.A.name = s.A.name ∧ s2.B.name = s.B.name ∧ s2.language = s.language ∧
      s2.A.ready = true ∧ s2.B.ready = true := by
  obtain ⟨ha, hb, hna, hnb, hl, -⟩ := roleSet_ready_fields s role slot hget
  have e1 := ready_trigger synth m id role s slot hid hget hA hB han
  refine ⟨?_, by rw [e1], triggered synth (roleSet s role { slot with ready := true }),
    ?_, ?_, ?_, ?_, ?_, ?_, ?_, ?_, ?_⟩
  · rw [e1, ha, hb, hna, hnb, hl]
  · rw [e1]; exact upd_self _ _ _
  · simp [triggered, ha, hb, hna, hnb, hl]
  · simp [triggered, ha]
  · simp [triggered, hb]
  · simp [triggered, hna]
  · simp [triggered, hnb]
  · simp [triggered, hl]
  · simp [triggered, hA]
  · simp [triggered, hB]

theorem ready_triggers_synthesis_witness :
    (ready (fun _ _ _ _ _ => "out") mPending "ab12cd" "A").2.2 =
      [Event.sleep 60,
       Event.synthCall ["a1", "a2"] ["b1"] (some "Alex") (some "Sam") "en"] ∧
    (ready (fun _ _ _ _ _ => "out") mPending "ab12cd" "A").1 = Resp.ok () ∧
    ∃ s2, (ready (fun _ _ _ _ _ => "out") mPending "ab12cd" "A").2.1 "ab12cd" = some s2 ∧
      s2.analysis = some "out" ∧
      s2.A.answers = ["a1", "a2"] ∧ s2.B.answers = ["b1"] ∧
      s2.A.name = some "Alex" ∧ s2.B.name = some "Sam" ∧ s2.language = "en" ∧
      s2.A.ready = true ∧ s2.B.ready = true :=
  ready_triggers_synthesis (fun _ _ _ _ _ => "out") mPending "ab12cd" "A"
    samplePending samplePending.A (by decide) (by decide) (by decide) (by decide)
    (by decide)

/-- C1: the analysis field is written by the ready route exactly when,
after the flag of the caller is set, both flags are true and the analysis was
still absent (it then becomes the synthesis output, with both flags true);
in every other case ready leaves the analysis unchanged, ready never
touches other sessions, and neither create_session (at a fresh
identifier), join_session nor save_answer ever changes any stored
analysis (check_ready and get_results are pure reads by construction).
Hence the analysis goes from absent to present at most once, and only
once both readiness flags hold. -/
theorem analysis_transition (synth : SynthFn) (m : Sessions) (id role : String) :
    (m id = none → (ready synth m id role).2.1 = m) ∧
    (∀ s, m id = some s → roleGet s role = none → (ready synth m id role).2.1 = m) ∧
    (∀ s slot, m id = some s → roleGet s role = some slot →
      (∀ k, k ≠ id → (ready synth m id role).2.1 k = m k) ∧
      ((roleSet s role { slot with ready := true }).A.ready = true ∧
       (roleSet s role { slot with ready := true }).B.ready = true ∧
       s.analysis = none →
        ∃ s2, (ready synth m id role).2.1 id = some s2 ∧
          s2.analysis = some (synth s.A.answers s.B.answers s.A.name s.B.name s.language) ∧
          s2.A.ready = true ∧ s2.B.ready = true) ∧
      (¬((roleSet s role { slot with ready := true }).A.ready = true ∧
         (roleSet s role { slot with ready := true }).B.ready = true ∧
         s.analysis = none) →
        ((ready synth m id role).2.1 id).map Session.analysis = some s.analysis)) ∧
    (∀ gen nm lang, m gen = none → ∀ k s0, m k = some s0 →
      ((create_session m gen nm lang).2 k).map Session.analysis = some s0.analysis) ∧
    (∀ nm k, ((join_session m id nm).2 k).map Session.analysis =
      (m k).map Session.analysis) ∧
    (∀ r a k, ((save_answer m id r a).2 k).map Session.analysis =
      (m k).map Session.analysis) := by
  refine ⟨fun h => by simp [ready, h], fun s hid hget => by simp [ready, hid, hget],
    fun s slot hid hget => ⟨?_, fun hc => ?_, fun hc => ?_⟩,
    fun gen nm lang hg k s0 h0 => ?_, fun nm k => ?_, fun r a k => ?_⟩
  · intro k hk
    rcases ready_state synth m id role with he | ⟨s2, slot2, _, _, he | he⟩ <;>
      rw [he] <;> first | rfl | exact upd_ne _ _ _ _ hk
  · obtain ⟨ha, hb, hna, hnb, hl, -⟩ := roleSet_ready_fields s role slot hget
    have e1 := ready_trigger synth m id role s slot hid hget hc.1 hc.2.1 hc.2.2
    refine ⟨triggered synth (roleSet s role { slot with ready := true }), ?_, ?_, ?_, ?_⟩
    · rw [e1]; exact upd_self _ _ _
    · simp [triggered, ha, hb, hna, hnb, hl]
    · simp [triggered, hc.1]
    · simp [triggered, hc.2.1]
  · have e1 := ready_no_trigger synth m id role s slot hid hget hc
    rw [e1]
    simp [upd_self, roleSet_analysis]
  · have hk : k ≠ gen := by
      intro h
      subst h
      rw [hg] at h0
      cases h0
    rw [show (create_session m gen nm lang).2 = upd m gen (initSession nm lang) from rfl,
      upd_ne _ _ _ _ hk, h0]
    rfl
  · rcases join_session_state m id nm with he | ⟨s2, hm2, he⟩
    · rw [he]
    · rw [he]
      by_cases hk : k = id
      · subst hk
        rw [upd_self, hm2]
        rfl
      · rw [upd_ne _ _ _ _ hk]
  · rcases save_answer_state m id r a with he | ⟨s2, slot2, hm2, hg2, he⟩
    · rw [he]
    · rw [he]
      by_cases hk : k = id
      · subst hk
        rw [upd_self, hm2]
        simp [roleSet_analysis]
      · rw [upd_ne _ _ _ _ hk]

theorem analysis_transition_witness :
    (∃ s2, (ready (fun _ _ _ _ _ => "out") mPending "ab12cd" "A").2.1 "ab12cd" = some s2 ∧
      s2.analysis = some "out" ∧ s2.A.ready = true ∧ s2.B.ready = true) ∧
    ((ready (fun _ _ _ _ _ => "keep") mFresh "ab12cd" "A").2.1 "ab12cd").map
      Session.analysis = some none ∧
    ((join_session mDone "ab12cd" "Zed").2 "ab12cd").map Session.analysis =
      (mDone "ab12cd").map Session.analysis ∧
    ((save_answer mDone "ab12cd" "B" "late").2 "ab12cd").map Session.analysis =
      (mDone "ab12cd").map Session.analysis :=
  ⟨((analysis_transition (fun _ _ _ _ _ => "out") mPending "ab12cd" "A").2.2.1
      samplePending samplePending.A (by decide) (by decide)).2.1 (by decide),
   ((analysis_transition (fun _ _ _ _ _ => "keep") mFresh "ab12cd" "A").2.2.1
      sampleFresh sampleFresh.A (by decide) (by decide)).2.2 (by decide),
   (analysis_transition (fun _ _ _ _ _ => "out") mDone "ab12cd" "A").2.2.2.2.1
      "Zed" "ab12cd",
   (analysis_transition (fun _ _ _ _ _ => "out") mDone "ab12cd" "A").2.2.2.2.2
      "B" "late" "ab12cd"⟩

/-- C4: on an existing session and a role in {A,B}, a run of save_answer
calls appends exactly the submitted texts, in call order, to the stored
answer list of that role and changes no other session; moreover no operation
(join_session, save_answer, ready, or create_session at a fresh
identifier) ever removes or reorders the stored answers of any session:
it either preserves them exactly or extends them at the end. -/
theorem save_answer_appends (m : Sessions) (id role : String) (s : Session)
    (answers : List String) (hid : m id = some s) :
    (role = "A" →
      (∀ k, k ≠ id → save_all m id role answers k = m k) ∧
      save_all m id role answers id =
        some { s with A := { s.A with answers := s.A.answers ++ answers } }) ∧
    (role = "B" →
      (∀ k, k ≠ id → save_all m id role answers k = m k) ∧
      save_all m id role answers id =
        some { s with B := { s.B with answers := s.B.answers ++ answers } }) ∧
    (∀ nm k s0 s1, m k = some s0 → (join_session m id nm).2 k = some s1 →
      s1.A.answers = s0.A.answers ∧ s1.B.answers = s0.B.answers) ∧
    (∀ r a k s0 s1, m k = some s0 → (save_answer m id r a).2 k = some s1 →
      List.IsPrefix s0.A.answers s1.A.answers ∧
      List.IsPrefix s0.B.answers s1.B.answers) ∧
    (∀ synth r k s0 s1, m k = some s0 → (ready synth m id r).2.1 k = some s1 →
      s1.A.answers = s0.A.answers ∧ s1.B.answers = s0.B.answers) ∧
    (∀ gen nm lang k s0 s1, m gen = none → m k = some s0 →
      (create_session m gen nm lang).2 k = some s1 →
      s1.A.answers = s0.A.answers ∧ s1.B.answers = s0.B.answers) := by
  refine ⟨fun hr => ?_, fun hr => ?_, fun nm k s0 s1 h0 h1 => ?_,
    fun r a k s0 s1 h0 h1 => ?_, fun synth r k s0 s1 h0 h1 => ?_,
    fun gen nm lang k s0 s1 hg h0 h1 => ?_⟩
  · subst hr; exact save_all_A id answers m s hid
  · subst hr; exact save_all_B id answers m s hid
  · rcases join_session_state m id nm with he | ⟨s2, hm2, he⟩
    · rw [he, h0] at h1
      injection h1 with h
      subst h
      exact ⟨rfl, rfl⟩
    · rw [he] at h1
      by_cases hk : k = id
      · subst hk
        rw [upd_self] at h1
        rw [h0] at hm2
        injection hm2 with hm2
        subst hm2
        injection h1 with h1
        subst h1
        exact ⟨rfl, rfl⟩
      · rw [upd_ne _ _ _ _ hk, h0] at h1
        injection h1 with h1
        subst h1
        exact ⟨rfl, rfl⟩
  · rcases save_answer_state m id r a with he | ⟨s2, slot, hm2, hg2, he⟩
    · rw [he, h0] at h1
      injection h1 with h
      subst h
      exact ⟨List.prefix_rfl, List.prefix_rfl⟩
    · rw [he] at h1
      by_cases hk : k = id
      · subst hk
        rw [upd_self] at h1
        rw [h0] at hm2
        injection hm2 with hm2
        subst hm2
        injection h1 with h1
        subst h1
        rcases roleGet_cases _ r slot hg2 with ⟨hr, hs⟩ | ⟨hr, hs⟩ <;>
          subst hr <;> subst hs <;>
          simp [roleSet, List.prefix_append, List.prefix_rfl]
      · rw [upd_ne _ _ _ _ hk, h0] at h1
        injection h1 with h1
        subst h1
        exact ⟨List.prefix_rfl, List.prefix_rfl⟩
  · rcases ready_state synth m id r with he | ⟨s2, slot, hm2, hg2, he⟩
    · rw [he, h0] at h1
      injection h1 with h
      subst h
      exact ⟨rfl, rfl⟩
    · by_cases hk : k = id
      · subst hk
        rw [h0] at hm2
        injection hm2 with hm2
        subst hm2
        obtain ⟨ha, hb, -, -, -, -⟩ := roleSet_ready_fields _ r slot hg2
        rcases he with he | he <;> rw [he, upd_self] at h1 <;>
          injection h1 with h1 <;> subst h1
        · exact ⟨ha, hb⟩
        · refine ⟨?_, ?_⟩ <;> simp [triggered, ha, hb]
      · rcases he with he | he <;> rw [he, upd_ne _ _ _ _ hk, h0] at h1 <;>
          injection h1 with h1 <;> subst h1 <;> exact ⟨rfl, rfl⟩
  · have hk : k ≠ gen := by
      intro h
      subst h
      rw [hg] at h0
      cases h0
    rw [show (create_session m gen nm lang).2 = upd m gen (initSession nm lang) from rfl,
      upd_ne _ _ _ _ hk, h0] at h1
    injection h1 with h
    subst h
    exact ⟨rfl, rfl⟩

theorem save_answer_appends_witness :
    save_all mFresh "ab12cd" "A" ["x", "y"] "ab12cd" =
      some { sampleFresh with A :=
        { sampleFresh.A with answers := sampleFresh.A.answers ++ ["x", "y"] } } :=
  ((save_answer_appends mFresh "ab12cd" "A" sampleFresh ["x", "y"] (by decide)).1 rfl).2

/-- C7 counterexample: the identifier is the 6-character truncation of a
random uuid, so two draws can coincide; when they do, the two create calls
return the same identifier and the second call silently replaces the
first session record (Alex record gone, Sam record in its place). -/
theorem create_session_collision_counterexample :
    (create_session (fun _ => none) "ab12cd" "Alex" (some "en")).1
      = (create_session ((create_session (fun _ => none) "ab12cd" "Alex" (some "en")).2)
          "ab12cd" "Sam" (some "de")).1 ∧
    (create_session ((create_session (fun _ => none) "ab12cd" "Alex" (some "en")).2)
        "ab12cd" "Sam" (some "de")).2 "ab12cd" = some (initSession "Sam" (some "de")) ∧
    initSession "Sam" (some "de") ≠ initSession "Alex" (some "en") :=
  ⟨rfl, by decide, by decide⟩

/-- C7 amended: whenever the two truncated random draws differ, the two
create_session calls return distinct identifiers and both records are
live afterwards, neither replaced. -/
theorem create_session_distinct_ids (m : Sessions) (gen1 gen2 n1 n2 : String)
    (l1 l2 : Option String) (h : gen1 ≠ gen2) :
    (create_session m gen1 n1 l1).1 ≠
      (create_session ((create_session m gen1 n1 l1).2) gen2 n2 l2).1 ∧
    (create_session ((create_session m gen1 n1 l1).2) gen2 n2 l2).2 gen1
      = some (initSession n1 l1) ∧
    (create_session ((create_session m gen1 n1 l1).2) gen2 n2 l2).2 gen2
      = some (initSession n2 l2) := by
  refine ⟨h, ?_, ?_⟩
  · simp [create_session, upd, h]
  · simp [create_session, upd]

theorem create_session_distinct_ids_witness :
    (create_session (fun _ => none) "aaaaaa" "Alex" (some "en")).1 ≠
      (create_session ((create_session (fun _ => none) "aaaaaa" "Alex" (some "en")).2)
        "bbbbbb" "Sam" none).1 ∧
    (create_session ((create_session (fun _ => none) "aaaaaa" "Alex" (some "en")).2)
        "bbbbbb" "Sam" none).2 "aaaaaa" = some (initSession "Alex" (some "en")) ∧
    (create_session ((create_session (fun _ => none) "aaaaaa" "Alex" (some "en")).2)
        "bbbbbb" "Sam" none).2 "bbbbbb" = some (initSession "Sam" none) :=
  create_session_distinct_ids (fun _ => none) "aaaaaa" "bbbbbb" "Alex" "Sam"
    (some "en") none (by decide)

/-- C9 counterexample: with the explicitly given language code "" the
stored language tag is "en", not the given code, because Python
`data.language or "en"` treats the empty string as falsy. -/
theorem create_session_empty_language_counterexample :
    ((create_session (fun _ => none) "ab12cd" "Alex" (some "")).2 "ab12cd").map
        Session.language = some "en" ∧
    ¬ (((create_session (fun _ => none) "ab12cd" "Alex" (some "")).2 "ab12cd").map
        Session.language = some "") := by
  exact ⟨by decide, by decide⟩

/-- C9 amended: create_session always succeeds, stores at the generated
identifier a record with slot A carrying the creator name, empty answers
and readiness false, slot B with no name, empty answers and readiness
false, analysis absent, and language tag equal to the given code when it
is present and non-empty, and "en" when it is absent, null, or the empty
string; the generated identifier is returned. -/
theorem create_session_initializes (m : Sessions) (gen name : String)
    (lang : Option String) :
    (create_session m gen name lang).1 = gen ∧
    (create_session m gen name lang).2 gen = some
      { A := { name := some name, answers := [], ready := false }
        B := { name := none, answers := [], ready := false }
        analysis := none
        language := langOrDefault lang } ∧
    langOrDefault none = "en" ∧
    langOrDefault (some "") = "en" ∧
    (∀ c, c ≠ "" → langOrDefault (some c) = c) := by
  refine ⟨rfl, ?_, rfl, rfl, fun c hc => ?_⟩
  · simp [create_session, upd, initSession]
  · simp [langOrDefault, hc]

theorem create_session_initializes_witness :
    (create_session (fun _ => none) "ab12cd" "Alex" (some "de")).1 = "ab12cd" ∧
    (create_session (fun _ => none) "ab12cd" "Alex" (some "de")).2 "ab12cd" = some
      { A := { name := some "Alex", answers := [], ready := false }
        B := { name := none, answers := [], ready := false }
        analysis := none
        language := langOrDefault (some "de") } ∧
    langOrDefault (some "de") = "de" :=
  ⟨(create_session_initializes (fun _ => none) "ab12cd" "Alex" (some "de")).1,
   (create_session_initializes (fun _ => none) "ab12cd" "Alex" (some "de")).2.1,
   (create_session_initializes (fun _ => none) "ab12cd" "Alex" (some "de")).2.2.2.2
     "de" (by decide)⟩

end ReflectUs
